import Mathlib

/-!
Shallow embedding of `src/components/text-split/FileUploader.js` (the
`FileUploader` React component of melon1507/easy-dataset).

The component is sequential UI-state orchestration: component-local state,
three network calls (list / upload / delete), localStorage reads, and
caller-supplied callbacks.  We embed each handler as a pure function from
the component state (and an environment describing localStorage, the
server's responses and which optional callbacks the caller supplied) to
the new state together with the ordered trace of externally visible
effects (network requests issued, callbacks invoked, the page reload).

JavaScript-specific semantics are modelled faithfully:
  * `x || fallback` on strings treats the empty string as falsy (`jsOr`);
  * `if (!x)` on a `localStorage.getItem` result is false for both `null`
    and the empty string (`jsTruthy`);
  * `JSON.parse` is an environment-supplied partial function
    (`Env.parseJson`; `none` models a thrown `SyntaxError` — in particular
    `JSON.parse("")` throws, so any faithful instantiation has
    `parseJson "" = none`);
  * `encodeURIComponent` is implemented from its specification: every
    character outside `A-Z a-z 0-9 - _ . ! ~ * ' ( )` is replaced by the
    uppercase percent-encoding of its UTF-8 bytes;
  * `try/finally` cleanup (`setUploading(false)`, `setLoading(false)`,
    `setFileToDelete(null)`) is applied on every path of the embedding.

Pending files are represented by their names (the only attribute the
component logic inspects).  The parsed model-info object is opaque to the
component and represented by `ModelInfo`.
-/

namespace FileUploader

/-- The opaque payload obtained from `JSON.parse(selectedModelInfo)`.  The
component never inspects it, only passes it through to the caller. -/
structure ModelInfo where
  payload : String
deriving DecidableEq, Repr

/-- The component-local React state of `FileUploader`
(`useState` hooks, lines 24–32 of the source). -/
structure State where
  /-- `files`: the pending (staged, not yet uploaded) file names. -/
  files : List String
  /-- `uploadedFiles`: the server-confirmed file list (cached copy). -/
  uploadedFiles : List String
  uploading : Bool
  loading : Bool
  error : Option String
  success : Bool
  successMessage : String
  deleteConfirmOpen : Bool
  fileToDelete : Option String
deriving DecidableEq, Repr

/-- An externally visible effect, in the order the handler performs it:
a network request issued, a caller-supplied callback invoked, or the
`location.reload()` side effect. -/
inductive Event where
  /-- `fetch(POST /api/projects/{id}/files)` uploading the named file. -/
  | postFile (name : String)
  /-- `fetch(GET /api/projects/{id}/files)` (inside `fetchUploadedFiles`). -/
  | getFiles
  /-- `fetch(DELETE url)` with the full request url. -/
  | deleteFile (url : String)
  /-- the `onUploadSuccess(fileNames, modelInfo)` callback. -/
  | uploadSuccessCb (names : List String) (info : Option ModelInfo)
  /-- the `onFileDeleted(fileName)` callback. -/
  | fileDeletedCb (name : String)
  /-- `location.reload()`. -/
  | reload
deriving DecidableEq, Repr

/-- The environment a handler invocation runs against: the props
(`projectId`, which optional callbacks were supplied), the localStorage
contents, `JSON.parse`, and the server's response to each request.
A `fetch` outcome is `Except e a`: `Except.error` covers both a non-2xx
response (carrying the response body's optional `error` field) and a
thrown network error. -/
structure Env where
  projectId : String
  /-- `localStorage.getItem('selectedModelId')` (`none` = `null`). -/
  selectedModelId : Option String
  /-- `localStorage.getItem('selectedModelInfo')` (`none` = `null`). -/
  selectedModelInfo : Option String
  /-- `JSON.parse`; `none` models a thrown `SyntaxError`. -/
  parseJson : String → Option ModelInfo
  /-- Response to the k-th POST issued (0-indexed): the returned
  `data.fileName`, or the failure's `errorData.error` field. -/
  postResp : Nat → Except (Option String) String
  /-- Response to a GET of the file list: the `data.files` field
  (`none` = field absent), or the failure's `errorData.error` field. -/
  getResp : Except (Option String) (Option (List String))
  /-- Response to a DELETE, or the failure's `errorData.error` field. -/
  deleteResp : Except (Option String) Unit
  /-- Whether the caller supplied `onUploadSuccess`. -/
  hasOnUploadSuccess : Bool
  /-- Whether the caller supplied `onFileDeleted`. -/
  hasOnFileDeleted : Bool

/-- JavaScript `x || d` for a possibly-absent string `x`: the empty
string is falsy. -/
def jsOr (x : Option String) (d : String) : String :=
  match x with
  | none => d
  | some s => if s = "" then d else s

/-- JavaScript `str.endsWith(suffix)`: `post` is a suffix of `s`
(character-wise; all names involved are plain strings). -/
def strEndsWith (s post : String) : Bool :=
  post.data.isSuffixOf s.data

/-- JavaScript truthiness of a `localStorage.getItem` result:
`null` and `""` are falsy. -/
def jsTruthy (x : Option String) : Bool :=
  match x with
  | none => false
  | some s => s != ""

/-- Error message thrown when no model is selected (line 106). -/
def noModelMsg : String := "未选择模型，请先在顶部导航栏选择一个模型"

/-- Error message thrown when the stored model info fails to parse
(line 116). -/
def parseErrMsg : String := "解析模型信息出错!"

/-- Generic upload-failure fallback message (lines 133, 151). -/
def uploadFailMsg : String := "上传文件失败"

/-- Generic list-fetch-failure fallback message (line 47). -/
def fetchFailMsg : String := "获取文件列表失败"

/-- Generic delete-failure fallback message (line 183). -/
def deleteFailMsg : String := "删除文件失败"

/-- One-file-per-project limit message (line 64). -/
def limitMsg : String := "一个项目限制处理一个文件，如需上传新文件请先删除现有文件"

/-- The combined invalid-format message of line 74, listing all rejected
file names joined by `", "`. -/
def invalidFmtMsg (names : List String) : String :=
  "不支持的文件格式: " ++ String.intercalate ", " names ++ "。目前仅支持Markdown文件。"

/-- Uppercase hexadecimal digit for `n < 16`. -/
def hexDigit (n : Nat) : Char :=
  if n < 10 then Char.ofNat (48 + n) else Char.ofNat (55 + n)

/-- The UTF-8 encoding of a character, as byte values. -/
def utf8Bytes (c : Char) : List Nat :=
  let n := c.toNat
  if n < 128 then [n]
  else if n < 2048 then [192 + n / 64, 128 + n % 64]
  else if n < 65536 then [224 + n / 4096, 128 + n / 64 % 64, 128 + n % 64]
  else [240 + n / 262144, 128 + n / 4096 % 64, 128 + n / 64 % 64, 128 + n % 64]

/-- Characters `encodeURIComponent` leaves unescaped:
`A-Z a-z 0-9 - _ . ! ~ * ' ( )`. -/
def uriUnreserved (c : Char) : Bool :=
  let n := c.toNat
  (65 ≤ n && n ≤ 90) || (97 ≤ n && n ≤ 122) || (48 ≤ n && n ≤ 57) ||
  n == 45 || n == 95 || n == 46 || n == 33 || n == 126 ||
  n == 42 || n == 39 || n == 40 || n == 41

/-- `%XX` escape of one byte, uppercase hex. -/
def pctByte (b : Nat) : List Char :=
  [Char.ofNat 37, hexDigit (b / 16), hexDigit (b % 16)]

/-- JavaScript `encodeURIComponent`: unreserved characters are kept,
everything else is percent-encoded byte-wise in UTF-8. -/
def encodeURIComponent (s : String) : String :=
  String.mk (s.data.flatMap fun c =>
    if uriUnreserved c then [c] else (utf8Bytes c).flatMap pctByte)

/-- The request url built on line 177:
`/api/projects/{projectId}/files?fileName=${encodeURIComponent(name)}`. -/
def deleteUrl (projectId name : String) : String :=
  "/api/projects/" ++ projectId ++ "/files?fileName=" ++ encodeURIComponent name

/-- `fetchUploadedFiles` (lines 40–58): GET the file list; on success
replace `uploadedFiles` with `data.files || []`, on failure set `error`
to `errorData.error || fetchFailMsg`; `loading` is cleared in the
`finally` block on both paths. -/
def fetchUploadedFiles (env : Env) (s : State) : State × List Event :=
  let s1 : State := { s with loading := true }
  match env.getResp with
  | Except.error e =>
      ({ s1 with error := some (jsOr e fetchFailMsg), loading := false },
       [Event.getFiles])
  | Except.ok dataFiles =>
      ({ s1 with uploadedFiles := dataFiles.getD [], loading := false },
       [Event.getFiles])

/-- `handleFileSelect` (lines 61–80): refuse everything when a file is
already uploaded; otherwise partition the candidates by the `.md`
suffix, report all invalid names in one combined error, and append the
valid ones to `files`. -/
def handleFileSelect (cands : List String) (s : State) : State :=
  if s.uploadedFiles.length > 0 then
    { s with error := some limitMsg }
  else
    let validFiles := cands.filter (fun n => strEndsWith n ".md")
    let invalidFiles := cands.filter (fun n => !(strEndsWith n ".md"))
    let s1 : State :=
      if invalidFiles.length > 0 then
        { s with error := some (invalidFmtMsg invalidFiles) }
      else s
    if validFiles.length > 0 then
      { s1 with files := s1.files ++ validFiles }
    else s1

/-- `removeFile` (lines 83–85): `prev.filter((_, i) => i !== index)`,
keeping exactly the entries whose position differs from `index`. -/
def removeFile (index : Nat) (files : List α) : List α :=
  ((files.enum.filter fun p => p.1 != index).map Prod.snd)

/-- The `for (const file of files)` loop of lines 122–138: POST the files
one at a time in order; the k-th POST is answered by `post k`.  Returns
the POST events actually issued and either the thrown error message
(`errorData.error || uploadFailMsg`, aborting the loop) or the collected
`data.fileName` values in order. -/
def uploadLoop (post : Nat → Except (Option String) String) :
    List String → Nat → List Event × Except String (List String)
  | [], _ => ([], Except.ok [])
  | f :: rest, k =>
    match post k with
    | Except.error e => ([Event.postFile f], Except.error (jsOr e uploadFailMsg))
    | Except.ok fname =>
      let p := uploadLoop post rest (k + 1)
      (Event.postFile f :: p.1, p.2.map fun ns => fname :: ns)

/-- Lines 110–118: read `selectedModelInfo` and, when it is truthy, parse
it; a parse failure throws `parseErrMsg`. -/
def modelInfoResult (env : Env) : Except String (Option ModelInfo) :=
  match env.selectedModelInfo with
  | none => Except.ok none
  | some str =>
    if str = "" then Except.ok none
    else
      match env.parseJson str with
      | none => Except.error parseErrMsg
      | some mi => Except.ok (some mi)

/-- `handleStartUpload` (lines 96–155): set `uploading`, clear the error,
require a truthy `selectedModelId`, optionally parse `selectedModelInfo`,
upload the pending files sequentially, and on full success show the
success message, clear `files`, re-fetch the uploaded list and invoke
`onUploadSuccess` with the collected file names and the model info.
Any thrown error lands in `error` as `err.message || uploadFailMsg`;
`uploading` is cleared in the `finally` block on every path. -/
def handleStartUpload (env : Env) (s : State) : State × List Event :=
  let s0 : State := { s with uploading := true, error := none }
  if jsTruthy env.selectedModelId = false then
    ({ s0 with error := some (jsOr (some noModelMsg) uploadFailMsg),
               uploading := false }, [])
  else
    match modelInfoResult env with
    | Except.error msg =>
        ({ s0 with error := some (jsOr (some msg) uploadFailMsg),
                   uploading := false }, [])
    | Except.ok info =>
      match uploadLoop env.postResp s0.files 0 with
      | (evs, Except.error msg) =>
          ({ s0 with error := some (jsOr (some msg) uploadFailMsg),
                     uploading := false }, evs)
      | (evs, Except.ok fnames) =>
          let s1 : State := { s0 with
            successMessage := "成功上传 " ++ toString s0.files.length ++ " 个文件",
            success := true,
            files := [] }
          let p2 := fetchUploadedFiles env s1
          let cb : List Event :=
            if env.hasOnUploadSuccess then [Event.uploadSuccessCb fnames info]
            else []
          ({ p2.1 with uploading := false }, evs ++ p2.2 ++ cb)

/-- `uploadFiles` (lines 88–93): no-op on an empty pending list,
otherwise start the upload. -/
def uploadFiles (env : Env) (s : State) : State × List Event :=
  if s.files.length = 0 then (s, []) else handleStartUpload env s

/-- `openDeleteConfirm` (lines 158–161). -/
def openDeleteConfirm (name : String) (s : State) : State :=
  { s with fileToDelete := some name, deleteConfirmOpen := true }

/-- `closeDeleteConfirm` (lines 164–167). -/
def closeDeleteConfirm (s : State) : State :=
  { s with deleteConfirmOpen := false, fileToDelete := none }

/-- `handleDeleteFile` (lines 170–204): the `if (!fileToDelete) return`
guard is falsy for both `null` and the empty string, so both
early-return with nothing done; otherwise set `loading`, close the
dialog, DELETE the staged name (url-encoded), and on success re-fetch
the list, invoke `onFileDeleted`, show the success message and reload
the page.  A failure sets `error`; the `finally` block clears `loading`
and `fileToDelete` on every path that enters the `try`.  The name used
throughout is the closure-captured value staged before the dialog was
closed. -/
def handleDeleteFile (env : Env) (s : State) : State × List Event :=
  match s.fileToDelete with
  | none => (s, [])
  | some name =>
    if name = "" then (s, [])
    else
    let s1 : State :=
      { s with loading := true, deleteConfirmOpen := false, fileToDelete := none }
    let url := deleteUrl env.projectId name
    let p :=
      match env.deleteResp with
      | Except.error e =>
          (({ s1 with error := some (jsOr e deleteFailMsg) } : State),
           [Event.deleteFile url])
      | Except.ok _ =>
        let pf := fetchUploadedFiles env s1
        let cb : List Event :=
          if env.hasOnFileDeleted then [Event.fileDeletedCb name] else []
        ({ pf.1 with successMessage := "成功删除文件 " ++ name, success := true },
         Event.deleteFile url :: (pf.2 ++ cb ++ [Event.reload]))
    ({ p.1 with loading := false, fileToDelete := none }, p.2)

/-- `handleCloseError` (lines 207–209). -/
def handleCloseError (s : State) : State :=
  { s with error := none }

/-- `handleCloseSuccess` (lines 212–214). -/
def handleCloseSuccess (s : State) : State :=
  { s with success := false }

/-- The list of server-returned file names collected by a fully
successful upload loop, when the k-th POST (0-indexed, counting from the
loop's start offset) is answered with `fname k`: `n` names starting at
offset `k`. -/
def namesFrom (fname : Nat → String) : Nat → Nat → List String
  | _, 0 => []
  | k, n + 1 => fname k :: namesFrom fname (k + 1) n

/-- A concrete idle component state with one staged pending file,
used to instantiate the theorems below. -/
def st0 : State :=
  { files := ["a.md"]
    uploadedFiles := []
    uploading := false
    loading := false
    error := none
    success := false
    successMessage := ""
    deleteConfirmOpen := false
    fileToDelete := none }

/-- A concrete environment where every request succeeds, a model is
selected and no model-info payload is stored. -/
def env0 : Env :=
  { projectId := "p1"
    selectedModelId := some "m1"
    selectedModelInfo := none
    parseJson := fun _ => none
    postResp := fun _ => Except.ok "srv.md"
    getResp := Except.ok (some ["srv.md"])
    deleteResp := Except.ok ()
    hasOnUploadSuccess := true
    hasOnFileDeleted := true }

/-- `env0` with no stored model identifier. -/
def envNoModel : Env :=
  { env0 with selectedModelId := none }

/-- `env0` with the empty string stored under `selectedModelInfo`.
The parser (`fun _ => none`) rejects every string, matching the fact
that `JSON.parse("")` throws: the stored value is not valid JSON. -/
def envEmptyInfo : Env :=
  { env0 with selectedModelInfo := some "" }

/-- `env0` with a non-empty, unparsable `selectedModelInfo` value. -/
def envBadInfo : Env :=
  { env0 with selectedModelInfo := some "not-json" }

/-- `env0` whose POST responses succeed for the first request and fail
from the second request on. -/
def envPostFail : Env :=
  { env0 with
    postResp := fun i =>
      if i = 0 then Except.ok "srv.md" else Except.error (some "boom") }

/-- `st0` with three staged pending files. -/
def st3 : State :=
  { st0 with files := ["a.md", "b.md", "c.md"] }

/-- `st0` with the file `doc.md` staged for deletion. -/
def stDel : State :=
  { st0 with fileToDelete := some "doc.md", deleteConfirmOpen := true }

/-- `st0` with the empty string staged for deletion and `loading` set:
the state at which the source's falsy `if (!fileToDelete)` guard
early-returns. -/
def stDelEmpty : State :=
  { st0 with fileToDelete := some "", deleteConfirmOpen := true, loading := true }

/-! ## Helper lemmas -/

/-- Applying the JavaScript `x || d` fallback to an already-fallback-ed
message changes nothing (the outer `err.message || d` of a `catch` block
is the identity on messages produced by an inner `x || d`). -/
lemma jsOr_idem (e : Option String) (d : String) :
    jsOr (some (jsOr e d)) d = jsOr e d := by
  cases e with
  | none => simp [jsOr]
  | some m => by_cases hm : m = "" <;> simp [jsOr, hm]

/-- Filtering an `enumFrom` by index inequality and dropping the indices
removes exactly the entry at position `j` (when in range). -/
lemma enumFrom_filter_map {α : Type} :
    ∀ (l : List α) (n j : Nat),
      (((List.enumFrom n l).filter fun p => p.1 != j).map Prod.snd) =
        if j < n then l else l.take (j - n) ++ l.drop (j - n + 1)
  | [], n, j => by simp [List.enumFrom]
  | a :: l, n, j => by
    have ih := enumFrom_filter_map l (n + 1) j
    rcases Nat.lt_trichotomy j n with h | h | h
    · have h1 : j < n + 1 := Nat.lt_succ_of_lt h
      have hb : (n != j) = true := by simp [bne_iff_ne]; omega
      simp [List.enumFrom, hb, ih, h, h1]
    · subst h
      have hb : (j != j) = false := by simp
      have h1 : j < j + 1 := Nat.lt_succ_self j
      simp [List.enumFrom, hb, ih, h1, Nat.lt_irrefl]
    · have hb : (n != j) = true := by simp [bne_iff_ne]; omega
      have h1 : ¬ j < n + 1 := by omega
      have h2 : ¬ j < n := by omega
      have h3 : j - n = (j - (n + 1)) + 1 := by omega
      have h4 : j - n + 1 = (j - (n + 1) + 1) + 1 := by omega
      simp only [List.enumFrom, List.filter_cons, hb, if_true, List.map_cons,
        ih, if_neg h1, if_neg h2, h3, h4, List.take_succ_cons,
        List.drop_succ_cons, List.cons_append]

/-- A fully successful upload loop issues one POST per file in order and
collects the server-returned names `fname k, fname (k+1), …`. -/
lemma uploadLoop_ok (post : Nat → Except (Option String) String)
    (fname : Nat → String) :
    ∀ (fs : List String) (k : Nat),
      (∀ i, i < fs.length → post (k + i) = Except.ok (fname (k + i))) →
      uploadLoop post fs k =
        (fs.map Event.postFile, Except.ok (namesFrom fname k fs.length))
  | [], _, _ => by simp [uploadLoop, namesFrom]
  | f :: rest, k, h => by
    have h0 : post k = Except.ok (fname k) := by
      simpa using h 0 (Nat.succ_pos rest.length)
    have ih := uploadLoop_ok post fname rest (k + 1) fun i hi => by
      have hh := h (i + 1) (Nat.succ_lt_succ hi)
      have he : k + (i + 1) = k + 1 + i := by omega
      rw [he] at hh
      exact hh
    simp [uploadLoop, h0, ih, namesFrom, Except.map]

/-- `namesFrom` starting at offset `k` is the range-indexed map. -/
lemma namesFrom_eq (fname : Nat → String) :
    ∀ (n k : Nat),
      namesFrom fname k n = (List.range n).map fun i => fname (k + i)
  | 0, _ => by simp [namesFrom]
  | n + 1, k => by
    rw [namesFrom, namesFrom_eq fname n (k + 1), List.range_succ_eq_map]
    simp [Function.comp, Nat.add_assoc, Nat.add_comm, Nat.add_left_comm]

/-- An upload loop whose `(j+1)`-st POST (0-indexed `j`) fails issues the
POSTs for exactly the first `j+1` files and aborts with the thrown
message. -/
lemma uploadLoop_fail (post : Nat → Except (Option String) String)
    (fname : Nat → String) (e : Option String) :
    ∀ (fs : List String) (k j : Nat),
      (∀ i, i < j → post (k + i) = Except.ok (fname (k + i))) →
      j < fs.length →
      post (k + j) = Except.error e →
      uploadLoop post fs k =
        ((fs.take (j + 1)).map Event.postFile,
         Except.error (jsOr e uploadFailMsg))
  | [], _, j, _, hj, _ => by simp at hj
  | f :: rest, k, 0, _, _, hfail => by
    have h0 : post k = Except.error e := by simpa using hfail
    simp [uploadLoop, h0]
  | f :: rest, k, j + 1, hok, hj, hfail => by
    have h0 : post k = Except.ok (fname k) := by
      simpa using hok 0 (Nat.succ_pos j)
    have ih := uploadLoop_fail post fname e rest (k + 1) j
      (fun i hi => by
        have hh := hok (i + 1) (Nat.succ_lt_succ hi)
        have he : k + (i + 1) = k + 1 + i := by omega
        rw [he] at hh
        exact hh)
      (Nat.lt_of_succ_lt_succ hj)
      (by
        have he : k + (j + 1) = k + 1 + j := by omega
        rw [he] at hfail
        exact hfail)
    simp [uploadLoop, h0, ih, Except.map]

/-! ## Claim theorems -/

/-- Claim C7: for every pending-files list and every valid index `i`,
`removeFile i` yields a list whose length is exactly one less and whose
remaining entries keep their relative order (it is the original list
with the entry at position `i` cut out). -/
theorem removeFile_removes_one {α : Type} (files : List α) (i : Nat)
    (h : i < files.length) :
    (removeFile i files).length = files.length - 1 ∧
    removeFile i files = files.take i ++ files.drop (i + 1) := by
  have he := enumFrom_filter_map files 0 i
  simp only [Nat.not_lt_zero, if_false, Nat.sub_zero] at he
  have hr : removeFile i files = files.take i ++ files.drop (i + 1) := by
    rw [removeFile, List.enum]
    exact he
  refine ⟨?_, hr⟩
  rw [hr]
  simp only [List.length_append, List.length_take, List.length_drop]
  omega

/-- Witness for C7 at a concrete list and index. -/
theorem removeFile_removes_one_witness :
    (removeFile 1 (["a", "b", "c"] : List String)).length =
      (["a", "b", "c"] : List String).length - 1 ∧
    removeFile 1 (["a", "b", "c"] : List String) =
      (["a", "b", "c"] : List String).take 1 ++
        (["a", "b", "c"] : List String).drop (1 + 1) :=
  removeFile_removes_one ["a", "b", "c"] 1 (by decide)

/-- Claim C8: dismissing the error notification and dismissing the
success notification are idempotent: on every state, applying either
dismissal twice in a row equals applying it once. -/
theorem dismiss_notifications_idempotent (s : State) :
    handleCloseError (handleCloseError s) = handleCloseError s ∧
    handleCloseSuccess (handleCloseSuccess s) = handleCloseSuccess s :=
  ⟨rfl, rfl⟩

/-- Claim C9 (implicit): when no deletion target is staged
(`fileToDelete = none`), confirming the delete is a complete no-op:
no request is issued (empty event trace) and the state is unchanged. -/
theorem handleDeleteFile_no_target_noop (env : Env) (s : State)
    (h : s.fileToDelete = none) :
    handleDeleteFile env s = (s, []) := by
  simp [handleDeleteFile, h]

/-- Witness for C9 at a concrete environment and state. -/
theorem handleDeleteFile_no_target_noop_witness :
    handleDeleteFile env0 st0 = (st0, []) :=
  handleDeleteFile_no_target_noop env0 st0 rfl

/-- Counterexample to claim C10 as stated: with the empty string staged
as deletion target and `loading` set, confirming the delete leaves
`fileToDelete = some ""` (not reset to `none`) and `loading` still set —
the `if (!fileToDelete) return` guard treats the staged `""` as falsy
and early-returns before the `try/finally` is ever entered. -/
theorem handleDeleteFile_empty_name_no_reset_counterexample :
    stDelEmpty.fileToDelete = some "" ∧
    stDelEmpty.loading = true ∧
    (handleDeleteFile env0 stDelEmpty).1.fileToDelete = some "" ∧
    (handleDeleteFile env0 stDelEmpty).1.loading = true :=
  ⟨rfl, rfl, rfl, rfl⟩

/-- Claim C10 (implicit, amended: the staged target must be non-empty,
since a staged empty string is falsy and early-returns untouched): after
every delete attempt on a non-empty staged target, successful or
failed, `fileToDelete` is reset to `none` and `loading` is cleared (the
`finally` block), for every server behaviour. -/
theorem handleDeleteFile_clears_target (env : Env) (s : State)
    (name : String) (h : s.fileToDelete = some name) (hne : name ≠ "") :
    (handleDeleteFile env s).1.fileToDelete = none ∧
    (handleDeleteFile env s).1.loading = false := by
  cases hd : env.deleteResp <;> cases hg : env.getResp <;>
    simp [handleDeleteFile, h, hne, hd, hg, fetchUploadedFiles]

/-- Witness for C10 at a concrete environment and staged state. -/
theorem handleDeleteFile_clears_target_witness :
    (handleDeleteFile env0 stDel).1.fileToDelete = none ∧
    (handleDeleteFile env0 stDel).1.loading = false :=
  handleDeleteFile_clears_target env0 stDel "doc.md" rfl (by decide)

/-- Claim C4: with no stored `selectedModelId`, `handleStartUpload`
fails with the no-model-selected error before issuing any network
request (empty event trace), leaves `files` (and everything except the
error field) unchanged, and ends with `uploading = false`. -/
theorem handleStartUpload_no_model (env : Env) (s : State)
    (h : env.selectedModelId = none) :
    handleStartUpload env s =
      ({ s with error := some noModelMsg, uploading := false }, []) := by
  simp [handleStartUpload, jsTruthy, h, jsOr, noModelMsg, uploadFailMsg]

/-- Witness for C4 at a concrete environment and state. -/
theorem handleStartUpload_no_model_witness :
    handleStartUpload envNoModel st0 =
      ({ st0 with error := some noModelMsg, uploading := false }, []) :=
  handleStartUpload_no_model envNoModel st0 rfl

/-- Counterexample to claim C5 as stated: local storage holds
`selectedModelId = "m1"` and holds the value `""` under
`selectedModelInfo`; `""` is not valid JSON (the environment's parser
rejects every string, faithfully to `JSON.parse("")` throwing), yet the
upload is NOT aborted with a parse error: a POST request is issued, the
batch succeeds, and no error is set — because `if (modelInfoStr)` treats
the empty string as falsy and skips parsing altogether. -/
theorem handleStartUpload_empty_info_counterexample :
    envEmptyInfo.selectedModelId = some "m1" ∧
    envEmptyInfo.selectedModelInfo = some "" ∧
    envEmptyInfo.parseJson "" = none ∧
    (handleStartUpload envEmptyInfo st0).2 =
      [Event.postFile "a.md", Event.getFiles,
       Event.uploadSuccessCb ["srv.md"] none] ∧
    (handleStartUpload envEmptyInfo st0).1.error = none := by
  refine ⟨rfl, rfl, rfl, ?_, ?_⟩ <;> rfl

/-- Claim C5 (amended: the stored `selectedModelInfo` value must be
non-empty, since the empty string is skipped as falsy): if local storage
holds a truthy `selectedModelId` and a non-empty `selectedModelInfo`
value that fails to parse as JSON, `handleStartUpload` aborts the whole
upload with the parse error before any POST request is sent (empty
event trace), leaving the rest of the state unchanged. -/
theorem handleStartUpload_malformed_info (env : Env) (s : State)
    (str : String)
    (hid : jsTruthy env.selectedModelId = true)
    (hinfo : env.selectedModelInfo = some str)
    (hne : str ≠ "")
    (hparse : env.parseJson str = none) :
    handleStartUpload env s =
      ({ s with error := some parseErrMsg, uploading := false }, []) := by
  simp [handleStartUpload, hid, modelInfoResult, hinfo, hne, hparse, jsOr,
    parseErrMsg, uploadFailMsg]

/-- Witness for the amended C5 at a concrete environment and state. -/
theorem handleStartUpload_malformed_info_witness :
    handleStartUpload envBadInfo st0 =
      ({ st0 with error := some parseErrMsg, uploading := false }, []) :=
  handleStartUpload_malformed_info envBadInfo st0 "not-json" (by decide)
    rfl (by decide) rfl

/-- Claim C3: on file selection, if `uploadedFiles` is non-empty no
candidate is accepted and the single-file-limit error is set; otherwise
exactly the candidates whose names end in `.md` are appended to the
pending files in order, and if any candidate does not end in `.md`, one
combined error message listing all rejected names is set. -/
theorem handleFileSelect_spec (cands : List String) (s : State) :
    (s.uploadedFiles ≠ [] →
      handleFileSelect cands s = { s with error := some limitMsg }) ∧
    (s.uploadedFiles = [] →
      (handleFileSelect cands s).files =
        s.files ++ cands.filter (fun n => strEndsWith n ".md") ∧
      ((cands.filter fun n => !(strEndsWith n ".md")) ≠ [] →
        (handleFileSelect cands s).error =
          some (invalidFmtMsg (cands.filter fun n => !(strEndsWith n ".md"))))) := by
  constructor
  · intro h
    have hl : 0 < s.uploadedFiles.length := List.length_pos.mpr h
    simp [handleFileSelect, hl]
  · intro h
    by_cases hv : (cands.filter fun n => strEndsWith n ".md") = [] <;>
      by_cases hi : (cands.filter fun n => !(strEndsWith n ".md")) = []
    · simp [handleFileSelect, h, hv, hi]
    · have hil : 0 < (cands.filter fun n => !(strEndsWith n ".md")).length :=
        List.length_pos.mpr hi
      simp [handleFileSelect, h, hv, hil]
    · have hvl : 0 < (cands.filter fun n => strEndsWith n ".md").length :=
        List.length_pos.mpr hv
      simp [handleFileSelect, h, hvl, hi]
    · have hvl : 0 < (cands.filter fun n => strEndsWith n ".md").length :=
        List.length_pos.mpr hv
      have hil : 0 < (cands.filter fun n => !(strEndsWith n ".md")).length :=
        List.length_pos.mpr hi
      simp [handleFileSelect, h, hvl, hil]

/-- Witness for C3 at a concrete candidate set (one `.md`, one rejected
name) against the empty-uploaded-list state. -/
theorem handleFileSelect_spec_witness :
    (handleFileSelect ["a.md", "b.txt"] st0).files =
      st0.files ++ (["a.md", "b.txt"].filter fun n => strEndsWith n ".md") ∧
    (handleFileSelect ["a.md", "b.txt"] st0).error =
      some (invalidFmtMsg
        (["a.md", "b.txt"].filter fun n => !(strEndsWith n ".md"))) := by
  have h := (handleFileSelect_spec ["a.md", "b.txt"] st0).2 rfl
  exact ⟨h.1, h.2 (by decide)⟩

/-- Counterexample to claim C6 as stated: the empty string is a staged
deletion target (`fileToDelete = some ""`), the server would answer the
DELETE with 2xx and the `onFileDeleted` callback is supplied, yet
confirming the delete issues no DELETE request and invokes no callback
(empty event trace, state unchanged) — the `if (!fileToDelete) return`
guard treats the staged `""` as falsy. -/
theorem handleDeleteFile_empty_name_counterexample :
    stDelEmpty.fileToDelete = some "" ∧
    env0.deleteResp = Except.ok () ∧
    env0.hasOnFileDeleted = true ∧
    handleDeleteFile env0 stDelEmpty = (stDelEmpty, []) :=
  ⟨rfl, rfl, rfl, rfl⟩

/-- Claim C6 (amended: the staged name must be non-empty, since a staged
empty string is falsy and early-returns with no request): confirming
the delete of a non-empty staged name issues a DELETE to
`/api/projects/{projectId}/files?fileName=<urlencoded name>`, and on a
2xx response invokes the `onFileDeleted` callback exactly once with that
name, before the page-reload side effect — for every outcome of the
intervening list re-fetch. -/
theorem handleDeleteFile_success_events (env : Env) (s : State)
    (name : String)
    (hname : s.fileToDelete = some name)
    (hne : name ≠ "")
    (hok : env.deleteResp = Except.ok ())
    (hcb : env.hasOnFileDeleted = true) :
    (handleDeleteFile env s).2 =
      [Event.deleteFile (deleteUrl env.projectId name), Event.getFiles,
       Event.fileDeletedCb name, Event.reload] := by
  cases hg : env.getResp <;>
    simp [handleDeleteFile, hname, hne, hok, hcb, hg, fetchUploadedFiles,
      deleteUrl]

/-- Witness for C6 at a concrete staged deletion of `doc.md`, with the
url fully evaluated (`encodeURIComponent "doc.md" = "doc.md"`). -/
theorem handleDeleteFile_success_events_witness :
    (handleDeleteFile env0 stDel).2 =
      [Event.deleteFile "/api/projects/p1/files?fileName=doc.md",
       Event.getFiles, Event.fileDeletedCb "doc.md", Event.reload] := by
  rw [handleDeleteFile_success_events env0 stDel "doc.md" rfl (by decide)
    rfl rfl]
  decide

/-- Claim C1: when a model is selected, the stored model info parses to
`info` (or is absent), every POST of the batch succeeds (the i-th
returning `fname i`), and the post-upload GET returns `serverFiles`:
after `handleStartUpload`, the pending `files` list is empty,
`uploadedFiles` equals the server's list, `uploading` is cleared, and
the supplied `onUploadSuccess` callback is invoked exactly once — after
all the POSTs and the GET — with the N server-returned file names in
submission order plus the parsed model info. -/
theorem handleStartUpload_full_success (env : Env) (s : State)
    (fname : Nat → String) (serverFiles : List String)
    (info : Option ModelInfo)
    (hid : jsTruthy env.selectedModelId = true)
    (hinfo : modelInfoResult env = Except.ok info)
    (hpost : ∀ i, i < s.files.length → env.postResp i = Except.ok (fname i))
    (hget : env.getResp = Except.ok (some serverFiles))
    (hcb : env.hasOnUploadSuccess = true) :
    (handleStartUpload env s).1.files = [] ∧
    (handleStartUpload env s).1.uploadedFiles = serverFiles ∧
    (handleStartUpload env s).1.uploading = false ∧
    (handleStartUpload env s).2 =
      s.files.map Event.postFile ++
        [Event.getFiles,
         Event.uploadSuccessCb ((List.range s.files.length).map fname) info] := by
  have hloop := uploadLoop_ok env.postResp fname s.files 0 fun i hi => by
    simpa using hpost i hi
  have hn := namesFrom_eq fname s.files.length 0
  simp only [Nat.zero_add] at hn
  simp [handleStartUpload, hid, hinfo, hloop, hn, fetchUploadedFiles, hget, hcb]

/-- Witness for C1: one staged file, every request succeeding. -/
theorem handleStartUpload_full_success_witness :
    (handleStartUpload env0 st0).1.files = [] ∧
    (handleStartUpload env0 st0).1.uploadedFiles = ["srv.md"] ∧
    (handleStartUpload env0 st0).1.uploading = false ∧
    (handleStartUpload env0 st0).2 =
      st0.files.map Event.postFile ++
        [Event.getFiles,
         Event.uploadSuccessCb
           ((List.range st0.files.length).map fun _ => "srv.md") none] :=
  handleStartUpload_full_success env0 st0 (fun _ => "srv.md") ["srv.md"] none
    (by decide) rfl (fun _ _ => rfl) rfl rfl

/-- Claim C2: if the POSTs before index `k` succeed and the POST at
index `k` (the `(k+1)`-st request) fails, then exactly the first `k+1`
files were POSTed (the later ones never), `uploading` ends `false`, the
pending `files` list is unchanged (no partial clear), and the only
visible outcome is the single error message: no GET, no callback, no
success notification, `uploadedFiles` untouched. -/
theorem handleStartUpload_kth_failure (env : Env) (s : State)
    (fname : Nat → String) (e : Option String) (k : Nat)
    (info : Option ModelInfo)
    (hid : jsTruthy env.selectedModelId = true)
    (hinfo : modelInfoResult env = Except.ok info)
    (hok : ∀ i, i < k → env.postResp i = Except.ok (fname i))
    (hk : k < s.files.length)
    (hfail : env.postResp k = Except.error e) :
    (handleStartUpload env s).1.files = s.files ∧
    (handleStartUpload env s).1.uploading = false ∧
    (handleStartUpload env s).1.error = some (jsOr e uploadFailMsg) ∧
    (handleStartUpload env s).1.uploadedFiles = s.uploadedFiles ∧
    (handleStartUpload env s).1.success = s.success ∧
    (handleStartUpload env s).2 = (s.files.take (k + 1)).map Event.postFile := by
  have hloop := uploadLoop_fail env.postResp fname e s.files 0 k
    (fun i hi => by simpa using hok i hi) hk (by simpa using hfail)
  have hj := jsOr_idem e uploadFailMsg
  simp [handleStartUpload, hid, hinfo, hloop, hj]

/-- Witness for C2: three staged files, the second POST failing. -/
theorem handleStartUpload_kth_failure_witness :
    (handleStartUpload envPostFail st3).1.files = st3.files ∧
    (handleStartUpload envPostFail st3).1.uploading = false ∧
    (handleStartUpload envPostFail st3).1.error =
      some (jsOr (some "boom") uploadFailMsg) ∧
    (handleStartUpload envPostFail st3).1.uploadedFiles = st3.uploadedFiles ∧
    (handleStartUpload envPostFail st3).1.success = st3.success ∧
    (handleStartUpload envPostFail st3).2 =
      (st3.files.take (1 + 1)).map Event.postFile :=
  handleStartUpload_kth_failure envPostFail st3 (fun _ => "srv.md")
    (some "boom") 1 none (by decide) rfl
    (fun i hi => Nat.lt_one_iff.mp hi ▸ rfl) (by decide) rfl

end FileUploader
